import Mathlib

/-!
Verification of the ACL text codec of the ssacl repository (ssacl.py,
ss-acl.py).  The Python code is embedded shallowly: strings are Lean
`String`s, Python dicts with a fixed key set become a structure of
`Option` fields (a `none` field models an absent key), Python `dict`
sub-maps keyed by user/group name become insertion-ordered association
lists, and Python exceptions (`IndexError`, `KeyError`, `UserWarning`)
become `Except String`.  The external pieces (subprocess invocation,
`os.stat`, file output) are treated as collaborators: the decoder takes
the text lines the external command produced, the encoder returns the
sequence of lines it would write to the ACL file.
-/

/-- Python's `s.split(sep)` for a one-character separator, on lists of
characters: splits at every occurrence of `sep`, keeping empty pieces. -/
def splitCh (sep : Char) : List Char → List (List Char)
  | [] => [[]]
  | c :: cs =>
    if c = sep then [] :: splitCh sep cs
    else
      match splitCh sep cs with
      | [] => [[c]]
      | h :: t => (c :: h) :: t

/-- Python's `line.split(':')` on strings. -/
def pySplit (s : String) : List String :=
  (splitCh ':' s.data).map String.mk

/-- Does `pat` occur at the start of `text`? (helper for Python's `in`). -/
def startsWithL : List Char → List Char → Bool
  | [], _ => true
  | _ :: _, [] => false
  | a :: as, b :: bs => a = b && startsWithL as bs

/-- Does `pat` occur anywhere in `text`? (helper for Python's `in`). -/
def containsSub (pat : List Char) : List Char → Bool
  | [] => startsWithL pat []
  | c :: cs => startsWithL pat (c :: cs) || containsSub pat cs

/-- Python's substring test `pat in line`. -/
def pyIn (pat line : String) : Bool :=
  containsSub pat.data line.data

/-- Python's slice `s[a:b]` (for `a ≤ b`): clamped, never raising. -/
def pySlice (s : String) (a b : Nat) : String :=
  String.mk ((s.data.drop a).take (b - a))

/-- Python's `xs[i]` on a list: raises `IndexError` when out of range. -/
def pyIx (xs : List String) (i : Nat) : Except String String :=
  match xs.get? i with
  | some v => Except.ok v
  | none => Except.error "IndexError: list index out of range"

/-- Python's `d[key]` for a key modelled as an `Option` field: raises
`KeyError` when the key is absent. -/
def pyKey {α : Type} (o : Option α) : Except String α :=
  match o with
  | some v => Except.ok v
  | none => Except.error "KeyError"

/-- One named user/group sub-dict value: `{'PERMS': ..., 'EFFECTIVE': ...}`
(ssacl.py lines 131-133 / 138-141). -/
structure AclEntry where
  PERMS : String
  EFFECTIVE : String
deriving DecidableEq

/-- Python dict assignment `m[k] = v` on an insertion-ordered association
list: an existing key keeps its position and gets the new value, a new key
is appended at the end. -/
def setKey (m : List (String × AclEntry)) (k : String) (v : AclEntry) :
    List (String × AclEntry) :=
  match m with
  | [] => [(k, v)]
  | (k', v') :: rest =>
    if k' = k then (k, v) :: rest else (k', v') :: setKey rest k v

/-- Python `k in m.keys()` followed by `m[k]`: ordered-association-list
lookup. -/
def lookupEntry : List (String × AclEntry) → String → Option AclEntry
  | [], _ => none
  | (k, v) :: rest, g => if k = g then some v else lookupEntry rest g

/-- The ACL dict built by `get_acl` (ssacl.py lines 89-146, identical in
ss-acl.py lines 153-227) and consumed by `write_acl_file` (ssacl.py lines
339-369).  Each Python dict key becomes an `Option` field; `none` models
the key being absent. -/
structure AclDict where
  FQPN : Option String := none
  OWNER : Option String := none
  GROUP : Option String := none
  USERP : Option String := none
  GROUPP : Option String := none
  OTHERP : Option String := none
  MASK : Option String := none
  USERS : Option (List (String × AclEntry)) := none
  GROUPS : Option (List (String × AclEntry)) := none
deriving DecidableEq

/-- The body of the `for line in output.splitlines()` loop of `get_acl`
(ssacl.py lines 121-145, identically ss-acl.py lines 201-226): a chain of
substring tests over the colon-split line, updating one dict field. -/
def parse_line (d : AclDict) (line : String) : Except String AclDict :=
  if pyIn "#owner:" line then
    match pyIx (pySplit line) 1 with
    | Except.error m => Except.error m
    | Except.ok f1 => Except.ok { d with OWNER := some f1 }
  else if pyIn "#group:" line then
    match pyIx (pySplit line) 1 with
    | Except.error m => Except.error m
    | Except.ok f1 => Except.ok { d with GROUP := some f1 }
  else if pyIn "user::" line then
    match pyIx (pySplit line) 1 with
    | Except.error m => Except.error m
    | Except.ok f1 =>
      if f1 = "" then
        match pyIx (pySplit line) 2 with
        | Except.error m => Except.error m
        | Except.ok f2 => Except.ok { d with USERP := some f2 }
      else
        match pyKey d.USERS with
        | Except.error m => Except.error m
        | Except.ok us =>
          match pyIx (pySplit line) 2 with
          | Except.error m => Except.error m
          | Except.ok f2 =>
            match pyIx (pySplit line) 3 with
            | Except.error m => Except.error m
            | Except.ok f3 =>
              Except.ok { d with
                USERS := some (setKey us f1 ⟨pySlice f2 0 4, pySlice f3 1 5⟩) }
  else if pyIn "group:" line then
    match pyIx (pySplit line) 1 with
    | Except.error m => Except.error m
    | Except.ok f1 =>
      if f1 = "" then
        match pyIx (pySplit line) 2 with
        | Except.error m => Except.error m
        | Except.ok f2 => Except.ok { d with GROUPP := some f2 }
      else
        match pyKey d.GROUPS with
        | Except.error m => Except.error m
        | Except.ok gs =>
          match pyIx (pySplit line) 2 with
          | Except.error m => Except.error m
          | Except.ok f2 =>
            match pyIx (pySplit line) 3 with
            | Except.error m => Except.error m
            | Except.ok f3 =>
              Except.ok { d with
                GROUPS := some (setKey gs f1 ⟨pySlice f2 0 4, pySlice f3 1 5⟩) }
  else if pyIn "other::" line then
    match pyIx (pySplit line) 2 with
    | Except.error m => Except.error m
    | Except.ok f2 => Except.ok { d with OTHERP := some f2 }
  else if pyIn "mask::" line then
    match pyIx (pySplit line) 2 with
    | Except.error m => Except.error m
    | Except.ok f2 => Except.ok { d with MASK := some f2 }
  else
    Except.ok d

/-- Function `get_acl` (ssacl.py lines 89-146 / ss-acl.py lines 153-227), with the
external command invocation factored out: it receives the text lines of
the `mmgetacl` output and folds the parsing loop over them, starting from
the dict `{'GROUPS': {}, 'USERS': {}, 'FQPN': filename}`. -/
def get_acl (filename : String) (output : List String) : Except String AclDict :=
  output.foldlM parse_line
    { GROUPS := some [], USERS := some [], FQPN := some filename }

/-- Function `check_group_acl` (ss-acl.py lines 60-72), identically the branching of
`mmacls.get_group_acl` (ssacl.py lines 207-225): `myacl` is the result of
the upstream `get_acl` pipeline (`none` when it failed, e.g. the path does
not stat); returns the sentinel `'????'` on failure, the stored `PERMS`
when the group has an entry, and the sentinel `'----'` otherwise. -/
def check_group_acl (myacl : Option AclDict) (group : String) :
    Except String String :=
  match myacl with
  | none => Except.ok "????"
  | some d =>
    match pyKey d.GROUPS with
    | Except.error m => Except.error m
    | Except.ok gs =>
      match lookupEntry gs group with
      | some entry => Except.ok entry.PERMS
      | none => Except.ok "----"

/-- Python truthiness of the `myacls` dict in `write_acl_file`'s
`if not myacls:` guard: an empty dict (every key absent) is falsy. -/
def dictEmpty (d : AclDict) : Bool :=
  d.FQPN.isNone && d.OWNER.isNone && d.GROUP.isNone && d.USERP.isNone &&
  d.GROUPP.isNone && d.OTHERP.isNone && d.MASK.isNone && d.USERS.isNone &&
  d.GROUPS.isNone

/-- The mask block of `write_acl_file` (ssacl.py lines 354-360): an
explicit `MASK` key is written back; otherwise `mask::rwxc` is written
exactly when both the `USERS` key and the `GROUPS` key are present. -/
def maskLines (d : AclDict) : List String :=
  match d.MASK with
  | some m => ["mask::" ++ m]
  | none =>
    match d.USERS, d.GROUPS with
    | some _, some _ => ["mask::rwxc"]
    | _, _ => []

/-- The named-user block of `write_acl_file` (ssacl.py lines 362-364):
one `user:<name>:<PERMS>` line per entry, in dict insertion order. -/
def userLines (d : AclDict) : List String :=
  match d.USERS with
  | some m => m.map (fun kv => "user:" ++ kv.1 ++ ":" ++ kv.2.PERMS)
  | none => []

/-- The named-group block of `write_acl_file` (ssacl.py lines 366-368):
one `group:<name>:<PERMS>` line per entry, in dict insertion order. -/
def groupLines (d : AclDict) : List String :=
  match d.GROUPS with
  | some m => m.map (fun kv => "group:" ++ kv.1 ++ ":" ++ kv.2.PERMS)
  | none => []

/-- Function `write_acl_file` (ssacl.py lines 339-369), with file output factored
out: returns the sequence of lines written to the ACL file, `none` when a
falsy `myacls` or `aclfile` makes the function return early without
writing, and an error when a mandatory key (`USERP`, `GROUPP`, `OTHERP`)
is absent and the dict access raises `KeyError`. -/
def write_acl_file (aclfile : String) :
    Option AclDict → Except String (Option (List String))
  | none => Except.ok none
  | some d =>
    if dictEmpty d then Except.ok none
    else if aclfile = "" then Except.ok none
    else
      match pyKey d.USERP with
      | Except.error m => Except.error m
      | Except.ok up =>
        match pyKey d.GROUPP with
        | Except.error m => Except.error m
        | Except.ok gp =>
          match pyKey d.OTHERP with
          | Except.error m => Except.error m
          | Except.ok op =>
            Except.ok (some (["user::" ++ up, "group::" ++ gp, "other::" ++ op]
              ++ maskLines d ++ userLines d ++ groupLines d))

namespace ssacl

/-- Function `run_cmd` of ssacl.py (lines 310-328), with the subprocess factored
out: the child's exit code and captured stdout/stderr are inputs.  A falsy
command string returns `None`; exit code 22 returns the literal text
`'File is not in gpfs.'` as a normal result; any other non-zero exit code
raises `UserWarning` with the formatted message; exit 0 returns stdout. -/
def runCmd (cmdstr : String) (returncode : Int) (outdata errdata : String) :
    Except String (Option String) :=
  if cmdstr = "" then Except.ok none
  else if returncode = 22 then Except.ok (some "File is not in gpfs.")
  else if returncode ≠ 0 then
    Except.error ("Error\n Command: " ++ cmdstr ++ "\n Message: " ++ errdata)
  else Except.ok (some outdata)

end ssacl

namespace ss_acl

/-- Function `run_cmd` of ss-acl.py (lines 42-58), with the subprocess factored
out: unlike the ssacl.py version it has no special case for exit code 22,
so every non-zero exit code raises `UserWarning`. -/
def runCmd (cmdstr : String) (returncode : Int) (outdata errdata : String) :
    Except String (Option String) :=
  if cmdstr = "" then Except.ok none
  else if returncode ≠ 0 then
    Except.error ("Error\n Command: " ++ cmdstr ++ "\n Message: " ++ errdata)
  else Except.ok (some outdata)

end ss_acl

/-- The effective fields of every named entry mapped through `f`, all
other data unchanged (used to state that the encoder never reads the
stored `EFFECTIVE` strings). -/
def mapEffective (f : String → String) (d : AclDict) : AclDict :=
  { d with
    USERS := d.USERS.map (List.map (fun kv => (kv.1, ⟨kv.2.PERMS, f kv.2.EFFECTIVE⟩)))
    GROUPS := d.GROUPS.map (List.map (fun kv => (kv.1, ⟨kv.2.PERMS, f kv.2.EFFECTIVE⟩))) }

/-- A `group:<name>:<perm>:<effective>` input line. -/
def glineStr (n p e : String) : String :=
  "group:" ++ n ++ ":" ++ p ++ ":" ++ e

/-- A `user:<name>:<perm>:<effective>` input line. -/
def ulineStr (n p e : String) : String :=
  "user:" ++ n ++ ":" ++ p ++ ":" ++ e

/-- Auxiliary predicate: does the character list contain two adjacent
colons? (used to reason about where `'user::' in line` can match). -/
def hasAdjColon : List Char → Bool
  | [] => false
  | [_] => false
  | a :: b :: rest => (a = ':' && b = ':') || hasAdjColon (b :: rest)

/-- A well-formed field of a vendor ACL line: a non-empty token free of
the `':'` field delimiter and of the `'#'` comment marker (user names,
group names and permission strings produced by `mmgetacl` are of this
shape). -/
abbrev plainF (s : String) : Prop :=
  s ≠ "" ∧ ':' ∉ s.data ∧ '#' ∉ s.data

/-- Invariant maintained by the parsing loop: the `USERS` and `GROUPS`
keys are present and both maps have duplicate-free key lists. -/
def goodMaps (d : AclDict) : Prop :=
  (∃ us, d.USERS = some us ∧ (us.map Prod.fst).Nodup) ∧
  (∃ gs, d.GROUPS = some gs ∧ (gs.map Prod.fst).Nodup)

/-- A concrete record with an explicit mask and one named user and one
named group, used to exercise the encoder theorems on closed inputs. -/
def recWithMask : AclDict :=
  { USERP := some "rwxc", GROUPP := some "r-x-", OTHERP := some "----",
    MASK := some "rw-c", USERS := some [("bob", ⟨"rw-c", "rw-c"⟩)],
    GROUPS := some [("adm", ⟨"rwxc", "rwxc"⟩)] }

-- sanity checks of the embedding on concrete vendor-format text
example : "ab".data = ['a', 'b'] := rfl
example : pySplit "group:adm:rwxc:+rwxc" = ["group", "adm", "rwxc", "+rwxc"] := rfl
example : pyIn "user::" "user:alice:rwxc:+rw-c" = false := rfl
example : pyIn "group:" "group:adm:rwxc:+rwxc" = true := rfl
example :
    get_acl "/f" ["#owner:alice", "user::rwxc", "group:adm:rwxc:+rwxc"] =
      Except.ok { FQPN := some "/f", OWNER := some "alice", USERP := some "rwxc",
                  USERS := some [],
                  GROUPS := some [("adm", ⟨"rwxc", "rwxc"⟩)] } := rfl

/-! ### String-level helper lemmas -/

lemma s_data_append (s t : String) : (s ++ t).data = s.data ++ t.data := rfl

lemma splitCh_no_sep {sep : Char} {xs : List Char} (h : sep ∉ xs) :
    splitCh sep xs = [xs] := by
  induction xs with
  | nil => rfl
  | cons c cs ih =>
    have hc : ¬ c = sep := fun hh => h (by simp [hh])
    have ih' := ih (fun hm => h (List.mem_cons_of_mem _ hm))
    simp [splitCh, hc, ih']

lemma splitCh_append (sep : Char) (xs ys : List Char) (h : sep ∉ xs) :
    splitCh sep (xs ++ sep :: ys) = xs :: splitCh sep ys := by
  induction xs with
  | nil => simp [splitCh]
  | cons c cs ih =>
    have hc : ¬ c = sep := fun hh => h (by simp [hh])
    have ih' := ih (fun hm => h (List.mem_cons_of_mem _ hm))
    simp [splitCh, hc, ih']

lemma startsWithL_append_self (pat rest : List Char) :
    startsWithL pat (pat ++ rest) = true := by
  induction pat with
  | nil => rfl
  | cons a as ih => simp [startsWithL, ih]

lemma containsSub_of_startsWith {pat text : List Char}
    (h : startsWithL pat text = true) : containsSub pat text = true := by
  cases text with
  | nil => simpa [containsSub] using h
  | cons c cs => simp [containsSub, h]

lemma exists_of_startsWith {pat : List Char} :
    ∀ {text : List Char}, startsWithL pat text = true →
      ∃ rest, text = pat ++ rest := by
  induction pat with
  | nil => exact fun {text} _ => ⟨text, rfl⟩
  | cons a as ih =>
    intro text h
    cases text with
    | nil => simp [startsWithL] at h
    | cons b bs =>
      simp only [startsWithL, Bool.and_eq_true, decide_eq_true_eq] at h
      obtain ⟨rest, hr⟩ := ih h.2
      exact ⟨rest, by simp [h.1, hr]⟩

lemma exists_of_containsSub {pat : List Char} :
    ∀ {text : List Char}, containsSub pat text = true →
      ∃ a b, text = a ++ (pat ++ b) := by
  intro text
  induction text with
  | nil =>
    intro h
    cases pat with
    | nil => exact ⟨[], [], rfl⟩
    | cons a as => simp [containsSub, startsWithL] at h
  | cons c cs ih =>
    intro h
    rcases Bool.or_eq_true_iff.mp (by simpa [containsSub] using h) with h1 | h2
    · obtain ⟨rest, hr⟩ := exists_of_startsWith h1
      exact ⟨[], rest, by simp [hr]⟩
    · obtain ⟨a, b, hab⟩ := ih h2
      exact ⟨c :: a, b, by simp [hab]⟩

lemma containsSub_of_eq_append (pat a b : List Char) :
    containsSub pat (a ++ (pat ++ b)) = true := by
  induction a with
  | nil => exact containsSub_of_startsWith (startsWithL_append_self pat b)
  | cons c cs ih => simp [containsSub, ih]

lemma head_mem_of_containsSub {c : Char} {pat text : List Char}
    (h : containsSub (c :: pat) text = true) : c ∈ text := by
  obtain ⟨a, b, rfl⟩ := exists_of_containsSub h
  simp

lemma no_marker_of_head_not_mem {c : Char} {pat text : List Char}
    (h : c ∉ text) : containsSub (c :: pat) text = false := by
  cases hcs : containsSub (c :: pat) text
  · rfl
  · exact absurd (head_mem_of_containsSub hcs) h

lemma hasAdjColon_of_no_colon {xs : List Char} (h : ':' ∉ xs) :
    hasAdjColon xs = false := by
  induction xs with
  | nil => rfl
  | cons a as ih =>
    cases as with
    | nil => rfl
    | cons b bs =>
      have ha : ¬ a = ':' := fun hh => h (by simp [hh])
      have hb := ih (fun hm => h (List.mem_cons_of_mem _ hm))
      simp [hasAdjColon, ha, hb]

lemma hasAdjColon_sep_append {xs ys : List Char} (hx : ':' ∉ xs)
    (hyne : ys ≠ []) (hyh : ys.head? ≠ some ':')
    (hys : hasAdjColon ys = false) :
    hasAdjColon (xs ++ ':' :: ys) = false := by
  obtain ⟨y, ys', rfl⟩ := List.exists_cons_of_ne_nil hyne
  have hy : ¬ y = ':' := by simpa using hyh
  induction xs with
  | nil => simp [hasAdjColon, hy, hys]
  | cons c cs ih =>
    have hc : ¬ c = ':' := fun hh => hx (by simp [hh])
    have ih' := ih (fun hm => hx (List.mem_cons_of_mem _ hm))
    cases cs with
    | nil => simpa [hasAdjColon, hc] using ih'
    | cons c2 cs2 => simpa [hasAdjColon, hc] using ih'

lemma hasAdjColon_double (a b : List Char) :
    hasAdjColon (a ++ ':' :: ':' :: b) = true := by
  induction a with
  | nil => simp [hasAdjColon]
  | cons c cs ih =>
    cases cs with
    | nil => simp only [List.nil_append] at ih; simp [hasAdjColon, ih]
    | cons c2 cs2 => simpa [hasAdjColon] using Or.inr ih

lemma no_user_marker {text : List Char} (h : hasAdjColon text = false) :
    containsSub "user::".data text = false := by
  cases hcs : containsSub "user::".data text
  · rfl
  · exfalso
    obtain ⟨a, b, rfl⟩ := exists_of_containsSub hcs
    have hshape : a ++ ("user::".data ++ b) =
        (a ++ "user".data) ++ ':' :: ':' :: b := by
      show a ++ ('u' :: 's' :: 'e' :: 'r' :: ':' :: ':' :: b) = _
      simp
    rw [hshape, hasAdjColon_double] at h
    cases h

lemma head_ne_colon {l : List Char} (h : ':' ∉ l) : l.head? ≠ some ':' := by
  cases l with
  | nil => simp
  | cons a as =>
    have : ¬ a = ':' := fun hh => h (by simp [hh])
    simpa using this

/-! ### Shape of named-entry lines -/

lemma glineStr_data (n p e : String) :
    (glineStr n p e).data =
      "group".data ++ ':' :: (n.data ++ ':' :: (p.data ++ ':' :: e.data)) := by
  show ((((("group:" ++ n) ++ ":") ++ p) ++ ":") ++ e).data = _
  simp only [s_data_append, List.append_assoc]
  rfl

lemma ulineStr_data (n p e : String) :
    (ulineStr n p e).data =
      "user".data ++ ':' :: (n.data ++ ':' :: (p.data ++ ':' :: e.data)) := by
  show ((((("user:" ++ n) ++ ":") ++ p) ++ ":") ++ e).data = _
  simp only [s_data_append, List.append_assoc]
  rfl

lemma gline_split {n p e : String} (hn : ':' ∉ n.data) (hp : ':' ∉ p.data)
    (he : ':' ∉ e.data) : pySplit (glineStr n p e) = ["group", n, p, e] := by
  unfold pySplit
  rw [glineStr_data,
    splitCh_append ':' "group".data _ (by decide),
    splitCh_append ':' n.data _ hn,
    splitCh_append ':' p.data _ hp,
    splitCh_no_sep he]
  rfl

lemma uline_split {n p e : String} (hn : ':' ∉ n.data) (hp : ':' ∉ p.data)
    (he : ':' ∉ e.data) : pySplit (ulineStr n p e) = ["user", n, p, e] := by
  unfold pySplit
  rw [ulineStr_data,
    splitCh_append ':' "user".data _ (by decide),
    splitCh_append ':' n.data _ hn,
    splitCh_append ':' p.data _ hp,
    splitCh_no_sep he]
  rfl

lemma gline_no_hash {n p e : String} (hn : '#' ∉ n.data) (hp : '#' ∉ p.data)
    (he : '#' ∉ e.data) : '#' ∉ (glineStr n p e).data := by
  rw [glineStr_data]
  intro hmem
  simp only [List.mem_append, List.mem_cons] at hmem
  rcases hmem with h | h
  · revert h; decide
  · rcases h with h | h
    · cases h
    · rcases h with h | h
      · exact hn h
      · rcases h with h | h
        · cases h
        · rcases h with h | h
          · exact hp h
          · rcases h with h | h
            · cases h
            · exact he h

lemma uline_no_hash {n p e : String} (hn : '#' ∉ n.data) (hp : '#' ∉ p.data)
    (he : '#' ∉ e.data) : '#' ∉ (ulineStr n p e).data := by
  rw [ulineStr_data]
  intro hmem
  simp only [List.mem_append, List.mem_cons] at hmem
  rcases hmem with h | h
  · revert h; decide
  · rcases h with h | h
    · cases h
    · rcases h with h | h
      · exact hn h
      · rcases h with h | h
        · cases h
        · rcases h with h | h
          · exact hp h
          · rcases h with h | h
            · cases h
            · exact he h

lemma gline_no_adj {n p e : String} (hn : ':' ∉ n.data) (hp : ':' ∉ p.data)
    (he : ':' ∉ e.data) (hnne : n ≠ "") (hpne : p ≠ "") (hene : e ≠ "") :
    hasAdjColon (glineStr n p e).data = false := by
  have hnd : n.data ≠ [] := fun hh => hnne (congrArg String.mk hh)
  have hpd : p.data ≠ [] := fun hh => hpne (congrArg String.mk hh)
  have hed : e.data ≠ [] := fun hh => hene (congrArg String.mk hh)
  have h1 : hasAdjColon (p.data ++ ':' :: e.data) = false :=
    hasAdjColon_sep_append hp hed (head_ne_colon he)
      (hasAdjColon_of_no_colon he)
  have h2 : hasAdjColon (n.data ++ ':' :: (p.data ++ ':' :: e.data)) = false := by
    refine hasAdjColon_sep_append hn (by simp [hpd]) ?_ h1
    obtain ⟨y, ys, hy⟩ := List.exists_cons_of_ne_nil hpd
    rw [hy]
    have : ¬ y = ':' := fun hh => hp (by simp [hy, hh])
    simpa using this
  rw [glineStr_data]
  exact hasAdjColon_sep_append (by decide) (by simp [hnd]) (by
    obtain ⟨y, ys, hy⟩ := List.exists_cons_of_ne_nil hnd
    rw [hy]
    have : ¬ y = ':' := fun hh => hn (by simp [hy, hh])
    simpa using this) h2

/-! ### Evaluation of the parse loop on recognized named-entry lines -/

lemma gline_markers {n p e : String} (hn : plainF n) (hp : plainF p)
    (he : plainF e) :
    pyIn "#owner:" (glineStr n p e) = false ∧
    pyIn "#group:" (glineStr n p e) = false ∧
    pyIn "user::" (glineStr n p e) = false ∧
    pyIn "group:" (glineStr n p e) = true := by
  obtain ⟨hn0, hnc, hnh⟩ := hn
  obtain ⟨hp0, hpc, hph⟩ := hp
  obtain ⟨he0, hec, heh⟩ := he
  have hhash : '#' ∉ (glineStr n p e).data := gline_no_hash hnh hph heh
  refine ⟨no_marker_of_head_not_mem hhash, no_marker_of_head_not_mem hhash,
    no_user_marker (gline_no_adj hnc hpc hec hn0 hp0 he0), ?_⟩
  show containsSub "group:".data (glineStr n p e).data = true
  rw [glineStr_data]
  exact containsSub_of_eq_append "group:".data []
    (n.data ++ ':' :: (p.data ++ ':' :: e.data))

lemma parse_line_gline (d : AclDict) (gs : List (String × AclEntry))
    (hd : d.GROUPS = some gs) {n p e : String}
    (hn : plainF n) (hp : plainF p) (he : plainF e) :
    parse_line d (glineStr n p e) =
      Except.ok { d with
        GROUPS := some (setKey gs n ⟨pySlice p 0 4, pySlice e 1 5⟩) } := by
  obtain ⟨h1, h2, h3, h4⟩ := gline_markers hn hp he
  have hsp : pySplit (glineStr n p e) = ["group", n, p, e] :=
    gline_split hn.2.1 hp.2.1 he.2.1
  unfold parse_line
  simp [h1, h2, h3, h4, hsp, pyIx, pyKey, hd, hn.1]

lemma parse_line_uline (d : AclDict) (us : List (String × AclEntry))
    (hd : d.USERS = some us) {n p e : String}
    (hnc : ':' ∉ n.data) (hpc : ':' ∉ p.data) (hec : ':' ∉ e.data)
    (hne : n ≠ "") (hh : '#' ∉ (ulineStr n p e).data)
    (h3 : pyIn "user::" (ulineStr n p e) = true) :
    parse_line d (ulineStr n p e) =
      Except.ok { d with
        USERS := some (setKey us n ⟨pySlice p 0 4, pySlice e 1 5⟩) } := by
  have h1 : pyIn "#owner:" (ulineStr n p e) = false :=
    no_marker_of_head_not_mem hh
  have h2 : pyIn "#group:" (ulineStr n p e) = false :=
    no_marker_of_head_not_mem hh
  have hsp : pySplit (ulineStr n p e) = ["user", n, p, e] :=
    uline_split hnc hpc hec
  unfold parse_line
  simp [h1, h2, h3, hsp, pyIx, pyKey, hd, hne]

lemma uline_user_marker (n0 e : String) :
    pyIn "user::" (ulineStr (n0 ++ "user") "" e) = true := by
  show containsSub "user::".data (ulineStr (n0 ++ "user") "" e).data = true
  rw [ulineStr_data]
  have hshape :
      "user".data ++ ':' :: ((n0 ++ "user").data ++ ':' :: ("".data ++ ':' :: e.data))
        = ("user".data ++ ':' :: n0.data) ++ ("user::".data ++ e.data) := by
    simp only [s_data_append, List.append_assoc, List.cons_append,
      List.nil_append]
  rw [hshape]
  exact containsSub_of_eq_append _ _ _

/-! ### Folding lemmas and the parse-loop invariant -/

lemma get_acl_append (fq : String) (ls : List String) (l : String) :
    get_acl fq (ls ++ [l]) =
      (get_acl fq ls).bind (fun d => parse_line d l) := by
  unfold get_acl
  rw [List.foldlM_append]
  cases h : List.foldlM parse_line
      { GROUPS := some [], USERS := some [], FQPN := some fq } ls with
  | error m => rfl
  | ok d =>
    show List.foldlM parse_line d [l] = parse_line d l
    rw [List.foldlM_cons]
    cases parse_line d l <;> rfl

lemma get_acl_snoc_ok {fq : String} {ls : List String} {l : String}
    {d : AclDict} (h : get_acl fq ls = Except.ok d) :
    get_acl fq (ls ++ [l]) = parse_line d l := by
  rw [get_acl_append, h]
  rfl

lemma setKey_keys (m : List (String × AclEntry)) (k : String) (v : AclEntry) :
    (setKey m k v).map Prod.fst =
      if k ∈ m.map Prod.fst then m.map Prod.fst else m.map Prod.fst ++ [k] := by
  induction m with
  | nil => simp [setKey]
  | cons kv rest ih =>
    obtain ⟨k', v'⟩ := kv
    by_cases hk : k' = k
    · subst hk
      simp [setKey]
    · by_cases hm : k ∈ rest.map Prod.fst <;>
        simp [setKey, hk, ih, hm, Ne.symm hk]

lemma setKey_keys_nodup {m : List (String × AclEntry)} {k : String}
    (v : AclEntry) (h : (m.map Prod.fst).Nodup) :
    ((setKey m k v).map Prod.fst).Nodup := by
  rw [setKey_keys]
  by_cases hm : k ∈ m.map Prod.fst
  · simpa [hm] using h
  · simp only [hm, if_false]
    exact h.append (List.nodup_singleton k) (by simpa using hm)

lemma lookup_setKey (m : List (String × AclEntry)) (k : String) (v : AclEntry) :
    lookupEntry (setKey m k v) k = some v := by
  induction m with
  | nil => simp [setKey, lookupEntry]
  | cons kv rest ih =>
    obtain ⟨k', v'⟩ := kv
    by_cases hk : k' = k <;> simp [setKey, lookupEntry, hk, ih]

lemma count_setKey {m : List (String × AclEntry)} {k : String} (v : AclEntry)
    (h : (m.map Prod.fst).Nodup) :
    ((setKey m k v).map Prod.fst).count k = 1 := by
  rw [setKey_keys]
  by_cases hm : k ∈ m.map Prod.fst
  · simp only [hm, if_true]
    exact List.count_eq_one_of_mem h hm
  · simp only [hm, if_false]
    rw [List.count_append]
    simp [List.count_eq_zero_of_not_mem hm]

lemma parse_line_goodMaps {d : AclDict} {l : String} {d' : AclDict}
    (hp : goodMaps d) (h : parse_line d l = Except.ok d') : goodMaps d' := by
  obtain ⟨⟨us0, hus0, hndu⟩, ⟨gs0, hgs0, hndg⟩⟩ := hp
  unfold parse_line at h
  split at h
  · split at h
    · cases h
    · cases h
      exact ⟨⟨us0, hus0, hndu⟩, ⟨gs0, hgs0, hndg⟩⟩
  · split at h
    · split at h
      · cases h
      · cases h
        exact ⟨⟨us0, hus0, hndu⟩, ⟨gs0, hgs0, hndg⟩⟩
    · split at h
      · split at h
        · cases h
        · split at h
          · split at h
            · cases h
            · cases h
              exact ⟨⟨us0, hus0, hndu⟩, ⟨gs0, hgs0, hndg⟩⟩
          · split at h
            · cases h
            · rename_i us hus
              split at h
              · cases h
              · split at h
                · cases h
                · cases h
                  simp only [pyKey, hus0] at hus
                  cases hus
                  exact ⟨⟨_, rfl, setKey_keys_nodup _ hndu⟩,
                    ⟨gs0, hgs0, hndg⟩⟩
      · split at h
        · split at h
          · cases h
          · split at h
            · split at h
              · cases h
              · cases h
                exact ⟨⟨us0, hus0, hndu⟩, ⟨gs0, hgs0, hndg⟩⟩
            · split at h
              · cases h
              · rename_i gs hgs
                split at h
                · cases h
                · split at h
                  · cases h
                  · cases h
                    simp only [pyKey, hgs0] at hgs
                    cases hgs
                    exact ⟨⟨us0, hus0, hndu⟩,
                      ⟨_, rfl, setKey_keys_nodup _ hndg⟩⟩
        · split at h
          · split at h
            · cases h
            · cases h
              exact ⟨⟨us0, hus0, hndu⟩, ⟨gs0, hgs0, hndg⟩⟩
          · split at h
            · split at h
              · cases h
              · cases h
                exact ⟨⟨us0, hus0, hndu⟩, ⟨gs0, hgs0, hndg⟩⟩
            · cases h
              exact ⟨⟨us0, hus0, hndu⟩, ⟨gs0, hgs0, hndg⟩⟩

lemma get_acl_goodMaps {fq : String} {ls : List String} {d : AclDict}
    (h : get_acl fq ls = Except.ok d) : goodMaps d := by
  have hgen : ∀ (ls : List String) (d0 d1 : AclDict), goodMaps d0 →
      List.foldlM parse_line d0 ls = Except.ok d1 → goodMaps d1 := by
    intro ls
    induction ls with
    | nil =>
      intro d0 d1 h0 hfold
      cases hfold
      exact h0
    | cons a t ih =>
      intro d0 d1 h0 hfold
      rw [List.foldlM_cons] at hfold
      cases ha : parse_line d0 a with
      | error m => rw [ha] at hfold; cases hfold
      | ok d2 =>
        rw [ha] at hfold
        exact ih d2 d1 (parse_line_goodMaps h0 ha) hfold
  exact hgen ls _ d ⟨⟨[], rfl, List.nodup_nil⟩, ⟨[], rfl, List.nodup_nil⟩⟩ h

/-! ### Encoder lemmas -/

lemma pyKey_eq_ok {α : Type} {o : Option α} {v : α}
    (h : pyKey o = Except.ok v) : o = some v := by
  cases o with
  | none => simp [pyKey] at h
  | some a =>
    simp only [pyKey, Except.ok.injEq] at h
    rw [h]

lemma write_acl_file_ok_shape {f : String} {d : AclDict} {ls : List String}
    (h : write_acl_file f (some d) = Except.ok (some ls)) :
    ∃ up gp op, d.USERP = some up ∧ d.GROUPP = some gp ∧
      d.OTHERP = some op ∧
      ls = ("user::" ++ up) :: ("group::" ++ gp) :: ("other::" ++ op) ::
        (maskLines d ++ (userLines d ++ groupLines d)) := by
  simp only [write_acl_file] at h
  split at h
  · simp at h
  · split at h
    · simp at h
    · split at h
      · cases h
      · rename_i up hup
        split at h
        · cases h
        · rename_i gp hgp
          split at h
          · cases h
          · rename_i op hop
            refine ⟨up, gp, op, pyKey_eq_ok hup, pyKey_eq_ok hgp,
              pyKey_eq_ok hop, ?_⟩
            simp only [Except.ok.injEq, Option.some.injEq] at h
            rw [← h]
            simp [List.append_assoc]

lemma dictEmpty_mapEffective (g : String → String) (d : AclDict) :
    dictEmpty (mapEffective g d) = dictEmpty d := by
  unfold dictEmpty mapEffective
  cases d.USERS <;> cases d.GROUPS <;> rfl

lemma maskLines_mapEffective (g : String → String) (d : AclDict) :
    maskLines (mapEffective g d) = maskLines d := by
  unfold maskLines mapEffective
  cases d.MASK <;> cases d.USERS <;> cases d.GROUPS <;> rfl

lemma userLines_mapEffective (g : String → String) (d : AclDict) :
    userLines (mapEffective g d) = userLines d := by
  unfold userLines mapEffective
  cases d.USERS with
  | none => rfl
  | some us => simp [List.map_map]

lemma groupLines_mapEffective (g : String → String) (d : AclDict) :
    groupLines (mapEffective g d) = groupLines d := by
  unfold groupLines mapEffective
  cases d.GROUPS with
  | none => rfl
  | some gs => simp [List.map_map]

lemma write_mapEffective (f : String) (g : String → String) (d : AclDict) :
    write_acl_file f (some (mapEffective g d)) = write_acl_file f (some d) := by
  simp only [write_acl_file]
  rw [dictEmpty_mapEffective]
  by_cases h1 : dictEmpty d = true
  · simp [h1]
  · simp only [h1, if_false, Bool.false_eq_true]
    by_cases h2 : f = ""
    · simp [h2]
    · simp only [h2, if_false]
      rw [show (mapEffective g d).USERP = d.USERP from rfl,
        show (mapEffective g d).GROUPP = d.GROUPP from rfl,
        show (mapEffective g d).OTHERP = d.OTHERP from rfl,
        maskLines_mapEffective, userLines_mapEffective,
        groupLines_mapEffective]

/-! ### Claim theorems -/

/-- C1 (evaluation at the failing input): decoding the vendor-format
named-user line `user:alice:rwxc:+rw-c` leaves the named-users map empty.
The branch guard demands the literal substring `user::`, which a
named-user line never contains, and no other branch matches, so the line
is silently dropped instead of storing
`namedUsers['alice'] = {perm: 'rwxc', effective: 'rw-c'}` as the claim
(and the function's own docstring) describe. -/
theorem named_user_line_dropped :
    get_acl "/tank/f" ["user:alice:rwxc:+rw-c"] =
      Except.ok { FQPN := some "/tank/f", USERS := some [],
                  GROUPS := some [] } := rfl

/-- C2: the group-ACL lookup is a three-way function: `'????'` when no
record could be obtained (the upstream decode failed, e.g. the path does
not exist), `'----'` when the record exists but its named-groups map has
no entry for the group, and the stored permission string of that group's
entry otherwise. -/
theorem check_group_acl_three_way (g : String) :
    check_group_acl none g = Except.ok "????" ∧
    (∀ (d : AclDict) (gs : List (String × AclEntry)), d.GROUPS = some gs →
      lookupEntry gs g = none →
      check_group_acl (some d) g = Except.ok "----") ∧
    (∀ (d : AclDict) (gs : List (String × AclEntry)) (ent : AclEntry),
      d.GROUPS = some gs → lookupEntry gs g = some ent →
      check_group_acl (some d) g = Except.ok ent.PERMS) := by
  refine ⟨rfl, ?_, ?_⟩
  · intro d gs hd hl
    simp [check_group_acl, pyKey, hd, hl]
  · intro d gs ent hd hl
    simp [check_group_acl, pyKey, hd, hl]

/-- Witness for C2 at the spec's own example: `namedGroups['staff'] =
{perm: 'rw--'}`. -/
theorem check_group_acl_three_way_witness :
    check_group_acl none "staff" = Except.ok "????" ∧
    check_group_acl
      (some { GROUPS := some [("staff", ⟨"rw--", "rw--"⟩)] }) "guests" =
        Except.ok "----" ∧
    check_group_acl
      (some { GROUPS := some [("staff", ⟨"rw--", "rw--"⟩)] }) "staff" =
        Except.ok "rw--" :=
  ⟨(check_group_acl_three_way "staff").1,
   (check_group_acl_three_way "guests").2.1
     { GROUPS := some [("staff", ⟨"rw--", "rw--"⟩)] } _ rfl rfl,
   (check_group_acl_three_way "staff").2.2
     { GROUPS := some [("staff", ⟨"rw--", "rw--"⟩)] } _ ⟨"rw--", "rw--"⟩
     rfl rfl⟩

/-- C3 (amended): the encoder writes the explicit mask when the MASK key
is present; with no MASK key it writes the fixed default `mask::rwxc`
exactly when both the USERS key and the GROUPS key are present —
regardless of whether those maps are empty — and no mask line otherwise.
The mask block sits right after the three unnamed lines. -/
theorem write_acl_file_mask_policy (f : String) (d : AclDict)
    (ls : List String)
    (h : write_acl_file f (some d) = Except.ok (some ls)) :
    ls.drop 3 = maskLines d ++ (userLines d ++ groupLines d) ∧
    (∀ m, d.MASK = some m → maskLines d = ["mask::" ++ m]) ∧
    (d.MASK = none → d.USERS.isSome = true → d.GROUPS.isSome = true →
      maskLines d = ["mask::rwxc"]) ∧
    (d.MASK = none → ¬(d.USERS.isSome = true ∧ d.GROUPS.isSome = true) →
      maskLines d = []) := by
  obtain ⟨up, gp, op, -, -, -, rfl⟩ := write_acl_file_ok_shape h
  refine ⟨rfl, ?_, ?_, ?_⟩
  · intro m hm
    simp [maskLines, hm]
  · intro hm hu hg
    obtain ⟨us, hus⟩ := Option.isSome_iff_exists.mp hu
    obtain ⟨gs, hgs⟩ := Option.isSome_iff_exists.mp hg
    simp [maskLines, hm, hus, hgs]
  · intro hm hnot
    cases hus : d.USERS with
    | none =>
      cases hgs : d.GROUPS with
      | none => simp [maskLines, hm, hus, hgs]
      | some gs => simp [maskLines, hm, hus, hgs]
    | some us =>
      cases hgs : d.GROUPS with
      | none => simp [maskLines, hm, hus, hgs]
      | some gs => exact absurd ⟨by simp [hus], by simp [hgs]⟩ hnot

/-- C3 counterexample: a record with no MASK key whose named-users and
named-groups maps are BOTH EMPTY (exactly what decode produces for a
plain file) still gets the default mask line, because the code tests key
presence, not non-emptiness.  The claim as stated predicts no mask line
for this record. -/
theorem write_acl_file_default_mask_on_empty_maps :
    write_acl_file "acl.tmp"
        (some { USERP := some "rwxc", GROUPP := some "r-x-",
                OTHERP := some "---c", USERS := some [],
                GROUPS := some [] }) =
      Except.ok (some ["user::rwxc", "group::r-x-", "other::---c",
        "mask::rwxc"]) := rfl

/-- Witness for C3's amended mask policy on a concrete record with an
explicit mask. -/
theorem write_acl_file_mask_policy_witness :
    maskLines recWithMask = ["mask::" ++ "rw-c"] :=
  (write_acl_file_mask_policy "acl.tmp" recWithMask
    ["user::rwxc", "group::r-x-", "other::----", "mask::rw-c",
     "user:bob:rw-c", "group:adm:rwxc"] rfl).2.1 "rw-c" rfl

/-- C4 (amended): for the ssacl.py command wrapper, a child exit code of
22 returns the distinct non-fatal result text `File is not in gpfs.`
instead of raising the `UserWarning` that every other non-zero exit code
produces.  (The ss-acl.py copy of the wrapper lacks this special case —
see the counterexample.) -/
theorem ssacl_runCmd_exit22 (cmdstr outdata errdata : String)
    (hc : cmdstr ≠ "") :
    ssacl.runCmd cmdstr 22 outdata errdata =
      Except.ok (some "File is not in gpfs.") := by
  unfold ssacl.runCmd
  simp [hc]

/-- Witness for C4's amended statement at a concrete invocation. -/
theorem ssacl_runCmd_exit22_witness :
    ssacl.runCmd "/usr/lpp/mmfs/bin/mmgetacl /tank/f" 22 "" "err" =
      Except.ok (some "File is not in gpfs.") :=
  ssacl_runCmd_exit22 "/usr/lpp/mmfs/bin/mmgetacl /tank/f" "" "err"
    (by decide)

/-- C4 counterexample: the ss-acl.py copy of the external-command wrapper
(ss-acl.py lines 42-58) raises the generic `UserWarning` failure when the
child exits with code 22, so the claim does not hold of every invocation
of the repository's external-command wrapper. -/
theorem ss_acl_runCmd_exit22_raises :
    ss_acl.runCmd "/usr/lpp/mmfs/bin/mmgetacl /tank/f" 22 "out" "err" =
      Except.error
        "Error\n Command: /usr/lpp/mmfs/bin/mmgetacl /tank/f\n Message: err" :=
  rfl

/-- C5: decoding an input ending in a `group:<name>:<perm>:<effective>`
line whose fields are vendor-format tokens (non-empty, free of `':'` and
`'#'`) and whose name is non-empty upserts `namedGroups[name]` with perm
the first 4 characters of the third field (`perm[0:4]`) and effective
characters 1 through 5 of the fourth field (`effective[1:5]`, dropping
the leading delimiter character). -/
theorem named_group_line_stores_entry (fq : String) (pre : List String)
    (d0 : AclDict) (n p e : String) (h0 : get_acl fq pre = Except.ok d0)
    (hn : plainF n) (hp : plainF p) (he : plainF e) :
    ∃ d gs, get_acl fq (pre ++ [glineStr n p e]) = Except.ok d ∧
      d.GROUPS = some gs ∧
      lookupEntry gs n = some ⟨pySlice p 0 4, pySlice e 1 5⟩ := by
  obtain ⟨-, ⟨gs0, hgs0, -⟩⟩ := get_acl_goodMaps h0
  have h1 : get_acl fq (pre ++ [glineStr n p e]) =
      Except.ok { d0 with
        GROUPS := some (setKey gs0 n ⟨pySlice p 0 4, pySlice e 1 5⟩) } := by
    rw [get_acl_snoc_ok h0, parse_line_gline d0 gs0 hgs0 hn hp he]
  exact ⟨_, _, h1, rfl, lookup_setKey gs0 n _⟩

/-- Witness for C5 on the spec's round-trip example line
`group:admins:rwxc:+rwxc`. -/
theorem named_group_line_stores_entry_witness :
    plainF "admins" ∧
    (∃ d gs,
      get_acl "/f" ([] ++ [glineStr "admins" "rwxc" "+rwxc"]) =
        Except.ok d ∧
      d.GROUPS = some gs ∧
      lookupEntry gs "admins" =
        some ⟨pySlice "rwxc" 0 4, pySlice "+rwxc" 1 5⟩) :=
  ⟨by decide,
   named_group_line_stores_entry "/f" []
     { GROUPS := some [], USERS := some [], FQPN := some "/f" }
     "admins" "rwxc" "+rwxc" rfl (by decide) (by decide) (by decide)⟩

/-- C6 (amended): an input line containing none of the six marker
substrings `#owner:`, `#group:`, `user::`, `group:`, `other::`, `mask::`
is silently ignored: appending it to any input neither raises nor changes
any field of the decoded record.  (As literally stated the claim is
false: a line can match none of the recognized line forms and still
contain a marker substring in its interior — see the counterexample.) -/
theorem unmarked_line_ignored (fq : String) (ls : List String) (l : String)
    (h1 : pyIn "#owner:" l = false) (h2 : pyIn "#group:" l = false)
    (h3 : pyIn "user::" l = false) (h4 : pyIn "group:" l = false)
    (h5 : pyIn "other::" l = false) (h6 : pyIn "mask::" l = false) :
    get_acl fq (ls ++ [l]) = get_acl fq ls := by
  have hid : ∀ d, parse_line d l = Except.ok d := by
    intro d
    unfold parse_line
    simp [h1, h2, h3, h4, h5, h6]
  rw [get_acl_append]
  cases h : get_acl fq ls with
  | error m => rfl
  | ok d => exact hid d

/-- Witness for C6's amended statement: `foo::bar` is ignored. -/
theorem unmarked_line_ignored_witness :
    get_acl "/f" (["user::rwxc"] ++ ["foo::bar"]) =
      get_acl "/f" ["user::rwxc"] :=
  unmarked_line_ignored "/f" ["user::rwxc"] "foo::bar"
    rfl rfl rfl rfl rfl rfl

/-- C6 counterexample: `xmask::rwxc` matches none of the eight recognized
line forms (no recognized form starts with `xmask`), yet decoding it is
not a no-op: it sets the MASK field, because the branch test looks for
the substring `mask::` anywhere in the line. -/
theorem unrecognized_form_line_alters_mask :
    get_acl "/f" ["xmask::rwxc"] =
      Except.ok { FQPN := some "/f", USERS := some [], GROUPS := some [],
                  MASK := some "rwxc" } := rfl

/-- C7: whenever the encoder writes lines for a record, the first three
are the unnamed entries in the fixed order `user::`, `group::`,
`other::`, and everything else (the mask block and all named-user and
named-group lines) comes after them. -/
theorem unnamed_lines_first (f : String) (d : AclDict) (ls : List String)
    (h : write_acl_file f (some d) = Except.ok (some ls)) :
    ∃ up gp op, d.USERP = some up ∧ d.GROUPP = some gp ∧
      d.OTHERP = some op ∧
      ls.take 3 = ["user::" ++ up, "group::" ++ gp, "other::" ++ op] ∧
      ls.drop 3 = maskLines d ++ (userLines d ++ groupLines d) := by
  obtain ⟨up, gp, op, hu, hg, ho, rfl⟩ := write_acl_file_ok_shape h
  exact ⟨up, gp, op, hu, hg, ho, rfl, rfl⟩

/-- Witness for C7 on a concrete record. -/
theorem unnamed_lines_first_witness :
    ∃ up gp op, recWithMask.USERP = some up ∧
      recWithMask.GROUPP = some gp ∧ recWithMask.OTHERP = some op ∧
      (["user::rwxc", "group::r-x-", "other::----", "mask::rw-c",
        "user:bob:rw-c", "group:adm:rwxc"] : List String).take 3 =
        ["user::" ++ up, "group::" ++ gp, "other::" ++ op] ∧
      (["user::rwxc", "group::r-x-", "other::----", "mask::rw-c",
        "user:bob:rw-c", "group:adm:rwxc"] : List String).drop 3 =
        maskLines recWithMask ++
          (userLines recWithMask ++ groupLines recWithMask) :=
  unnamed_lines_first "acl.tmp" recWithMask
    ["user::rwxc", "group::r-x-", "other::----", "mask::rw-c",
     "user:bob:rw-c", "group:adm:rwxc"] rfl

/-- C8: every entry of the named-users (resp. named-groups) map is
emitted as the line `user:<name>:<perm>` (resp. `group:<name>:<perm>`)
carrying only the name and perm fields, and the stored effective field is
never written back: the encoder's output is invariant under arbitrary
rewriting of all stored effective strings. -/
theorem named_lines_carry_only_perm (f : String) (d : AclDict)
    (ls : List String)
    (h : write_acl_file f (some d) = Except.ok (some ls)) :
    (∀ n ent us, d.USERS = some us → (n, ent) ∈ us →
      ("user:" ++ n ++ ":" ++ ent.PERMS) ∈ ls) ∧
    (∀ n ent gs, d.GROUPS = some gs → (n, ent) ∈ gs →
      ("group:" ++ n ++ ":" ++ ent.PERMS) ∈ ls) ∧
    (∀ g : String → String,
      write_acl_file f (some (mapEffective g d)) =
        write_acl_file f (some d)) := by
  obtain ⟨up, gp, op, -, -, -, rfl⟩ := write_acl_file_ok_shape h
  refine ⟨?_, ?_, fun g => write_mapEffective f g d⟩
  · intro n ent us hus hmem
    have hin : ("user:" ++ n ++ ":" ++ ent.PERMS) ∈ userLines d := by
      unfold userLines
      rw [hus]
      exact List.mem_map_of_mem _ hmem
    simp [hin]
  · intro n ent gs hgs hmem
    have hin : ("group:" ++ n ++ ":" ++ ent.PERMS) ∈ groupLines d := by
      unfold groupLines
      rw [hgs]
      exact List.mem_map_of_mem _ hmem
    simp [hin]

/-- Witness for C8 on a concrete record. -/
theorem named_lines_carry_only_perm_witness :
    ("user:" ++ "bob" ++ ":" ++ (⟨"rw-c", "rw-c"⟩ : AclEntry).PERMS) ∈
      (["user::rwxc", "group::r-x-", "other::----", "mask::rw-c",
        "user:bob:rw-c", "group:adm:rwxc"] : List String) ∧
    write_acl_file "acl.tmp"
        (some (mapEffective (fun _ => "????") recWithMask)) =
      write_acl_file "acl.tmp" (some recWithMask) := by
  have H := named_lines_carry_only_perm "acl.tmp" recWithMask
    ["user::rwxc", "group::r-x-", "other::----", "mask::rw-c",
     "user:bob:rw-c", "group:adm:rwxc"] rfl
  exact ⟨H.1 "bob" ⟨"rw-c", "rw-c"⟩ [("bob", ⟨"rw-c", "rw-c"⟩)] rfl
    (by decide), H.2.2 (fun _ => "????")⟩

/-- C9: when the input contains two named-entry lines that the decoder
recognizes for the same name, the decoded record holds exactly one entry
under that name (keys are unique) and its perm and effective fields are
those of the later line.  First conjunct: group lines (recognized
whenever their fields are well-formed vendor tokens); second conjunct:
the user lines the substring guard `'user::' in line` recognizes, namely
those whose name ends in `user` and whose perm field is empty. -/
theorem duplicate_named_lines_last_wins :
    (∀ (fq : String) (pre : List String) (d0 : AclDict)
        (n p1 e1 p2 e2 : String),
      get_acl fq pre = Except.ok d0 → plainF n → plainF p1 → plainF e1 →
      plainF p2 → plainF e2 →
      ∃ d gs,
        get_acl fq (pre ++ [glineStr n p1 e1, glineStr n p2 e2]) =
          Except.ok d ∧
        d.GROUPS = some gs ∧
        lookupEntry gs n = some ⟨pySlice p2 0 4, pySlice e2 1 5⟩ ∧
        (gs.map Prod.fst).count n = 1) ∧
    (∀ (fq : String) (pre : List String) (d0 : AclDict) (n0 e1 e2 : String),
      get_acl fq pre = Except.ok d0 → ':' ∉ n0.data → '#' ∉ n0.data →
      plainF e1 → plainF e2 →
      ∃ d us,
        get_acl fq (pre ++ [ulineStr (n0 ++ "user") "" e1,
          ulineStr (n0 ++ "user") "" e2]) = Except.ok d ∧
        d.USERS = some us ∧
        lookupEntry us (n0 ++ "user") =
          some ⟨pySlice "" 0 4, pySlice e2 1 5⟩ ∧
        (us.map Prod.fst).count (n0 ++ "user") = 1) := by
  constructor
  · intro fq pre d0 n p1 e1 p2 e2 h0 hn hp1 he1 hp2 he2
    obtain ⟨-, ⟨gs0, hgs0, hnd⟩⟩ := get_acl_goodMaps h0
    have hsplit2 : pre ++ [glineStr n p1 e1, glineStr n p2 e2] =
        (pre ++ [glineStr n p1 e1]) ++ [glineStr n p2 e2] := by simp
    have h1 : get_acl fq (pre ++ [glineStr n p1 e1]) =
        Except.ok { d0 with
          GROUPS := some (setKey gs0 n ⟨pySlice p1 0 4, pySlice e1 1 5⟩) } := by
      rw [get_acl_snoc_ok h0, parse_line_gline d0 gs0 hgs0 hn hp1 he1]
    have h2 : get_acl fq
        (pre ++ [glineStr n p1 e1, glineStr n p2 e2]) =
        Except.ok { d0 with
          GROUPS := some (setKey
            (setKey gs0 n ⟨pySlice p1 0 4, pySlice e1 1 5⟩) n
            ⟨pySlice p2 0 4, pySlice e2 1 5⟩) } := by
      rw [hsplit2, get_acl_snoc_ok h1, parse_line_gline _ _ rfl hn hp2 he2]
    exact ⟨_, _, h2, rfl, lookup_setKey _ _ _,
      count_setKey _ (setKey_keys_nodup _ hnd)⟩
  · intro fq pre d0 n0 e1 e2 h0 hn0c hn0h he1 he2
    obtain ⟨⟨us0, hus0, hnd⟩, -⟩ := get_acl_goodMaps h0
    have hnc : ':' ∉ (n0 ++ "user").data := by
      rw [s_data_append]
      intro hm
      rcases List.mem_append.mp hm with hm | hm
      · exact hn0c hm
      · revert hm
        decide
    have hnh : '#' ∉ (n0 ++ "user").data := by
      rw [s_data_append]
      intro hm
      rcases List.mem_append.mp hm with hm | hm
      · exact hn0h hm
      · revert hm
        decide
    have hne : (n0 ++ "user") ≠ "" := by
      intro hcon
      have hd := congrArg String.data hcon
      rw [s_data_append] at hd
      rcases List.append_eq_nil.mp hd with ⟨-, h4⟩
      exact absurd h4 (by decide)
    have hsplit2 : pre ++ [ulineStr (n0 ++ "user") "" e1,
        ulineStr (n0 ++ "user") "" e2] =
        (pre ++ [ulineStr (n0 ++ "user") "" e1]) ++
          [ulineStr (n0 ++ "user") "" e2] := by simp
    have h1 : get_acl fq (pre ++ [ulineStr (n0 ++ "user") "" e1]) =
        Except.ok { d0 with
          USERS := some (setKey us0 (n0 ++ "user")
            ⟨pySlice "" 0 4, pySlice e1 1 5⟩) } := by
      rw [get_acl_snoc_ok h0,
        parse_line_uline d0 us0 hus0 hnc (by decide) he1.2.1 hne
          (uline_no_hash hnh (by decide) he1.2.2) (uline_user_marker n0 e1)]
    have h2 : get_acl fq
        (pre ++ [ulineStr (n0 ++ "user") "" e1,
          ulineStr (n0 ++ "user") "" e2]) =
        Except.ok { d0 with
          USERS := some (setKey
            (setKey us0 (n0 ++ "user") ⟨pySlice "" 0 4, pySlice e1 1 5⟩)
            (n0 ++ "user") ⟨pySlice "" 0 4, pySlice e2 1 5⟩) } := by
      rw [hsplit2, get_acl_snoc_ok h1,
        parse_line_uline _ _ rfl hnc (by decide) he2.2.1 hne
          (uline_no_hash hnh (by decide) he2.2.2) (uline_user_marker n0 e2)]
    exact ⟨_, _, h2, rfl, lookup_setKey _ _ _,
      count_setKey _ (setKey_keys_nodup _ hnd)⟩

/-- Witness for C9: both conjuncts at concrete duplicate lines. -/
theorem duplicate_named_lines_last_wins_witness :
    (∃ d gs,
      get_acl "/f" ([] ++ [glineStr "adm" "rwxc" "+rwxc",
        glineStr "adm" "r---" "+r---"]) = Except.ok d ∧
      d.GROUPS = some gs ∧
      lookupEntry gs "adm" =
        some ⟨pySlice "r---" 0 4, pySlice "+r---" 1 5⟩ ∧
      (gs.map Prod.fst).count "adm" = 1) ∧
    (∃ d us,
      get_acl "/f" ([] ++ [ulineStr ("x" ++ "user") "" "+rw-c",
        ulineStr ("x" ++ "user") "" "+r---"]) = Except.ok d ∧
      d.USERS = some us ∧
      lookupEntry us ("x" ++ "user") =
        some ⟨pySlice "" 0 4, pySlice "+r---" 1 5⟩ ∧
      (us.map Prod.fst).count ("x" ++ "user") = 1) :=
  ⟨duplicate_named_lines_last_wins.1 "/f" []
     { GROUPS := some [], USERS := some [], FQPN := some "/f" }
     "adm" "rwxc" "+rwxc" "r---" "+r---" rfl (by decide) (by decide)
     (by decide) (by decide) (by decide),
   duplicate_named_lines_last_wins.2 "/f" []
     { GROUPS := some [], USERS := some [], FQPN := some "/f" }
     "x" "+rw-c" "+r---" rfl (by decide) (by decide) (by decide)
     (by decide)⟩

/-- C10: every successful decode — of any input, including the empty one
— yields a record whose named-users and named-groups keys are present
(possibly empty maps); consequently the encoder's key-presence checks
succeed on a decoded record, so a decoded record without a MASK key
always gets the default mask line. -/
theorem decode_always_has_named_maps (fq : String) (lines : List String)
    (d : AclDict) (h : get_acl fq lines = Except.ok d) :
    d.USERS.isSome = true ∧ d.GROUPS.isSome = true ∧
    (d.MASK = none → maskLines d = ["mask::rwxc"]) := by
  obtain ⟨⟨us, hus, -⟩, ⟨gs, hgs, -⟩⟩ := get_acl_goodMaps h
  exact ⟨by simp [hus], by simp [hgs],
    fun hm => by simp [maskLines, hm, hus, hgs]⟩

/-- Witness for C10 at the empty input. -/
theorem decode_always_has_named_maps_witness :
    (({ GROUPS := some [], USERS := some [], FQPN := some "/f" } :
      AclDict).USERS.isSome = true) ∧
    (({ GROUPS := some [], USERS := some [], FQPN := some "/f" } :
      AclDict).GROUPS.isSome = true) ∧
    (({ GROUPS := some [], USERS := some [], FQPN := some "/f" } :
        AclDict).MASK = none →
      maskLines { GROUPS := some [], USERS := some [], FQPN := some "/f" } =
        ["mask::rwxc"]) :=
  decode_always_has_named_maps "/f" [] _ rfl
